import Mathlib

/-!
Verification development for the PDF processing pipeline
(React frontend in `frontend/src/App.js`; FastAPI backend described by the
design document).  Frontend handlers are embedded from the source; backend
components absent from the repository snapshot are modelled from the spec,
each marked `Modelled from the spec:` in its doc comment.
-/

namespace Piazza

/-! ## Data model (§3 of the spec) -/

/-- Modelled from the spec: `EntitySet` = named entities extracted from a
chunk; each field is an insertion-ordered list that the merge keeps
duplicate-free. -/
structure EntitySet where
  names : List String
  dates : List String
  addresses : List String
  deriving DecidableEq, Repr

/-- Modelled from the spec: a `Table` has ordered headers and ordered rows. -/
structure Table where
  headers : List String
  rows : List (List String)
  deriving DecidableEq, Repr

/-- Modelled from the spec: the per-request `ProcessingResult` produced by the
Orchestrator. -/
structure ProcessingResult where
  extractedText : String
  entities : EntitySet
  tables : List Table
  success : Bool
  errorMessage : Option String
  deriving DecidableEq, Repr

def emptyEntitySet : EntitySet := { names := [], dates := [], addresses := [] }

/-! ## ChunkPlanner (§4.2, modelled from the spec: `backend/main.py` is not in
the repository snapshot) -/

/-- Index of the last whitespace character of the list, if any. -/
def lastWs : List Char → Option Nat
  | [] => none
  | c :: cs =>
    match lastWs cs with
    | some k => some (k + 1)
    | none => if c.isWhitespace then some 0 else none

/-- Modelled from the spec: the cut position for an over-long text — one past
the last whitespace at or before the length limit, or the hard limit when the
window holds no whitespace (never 0, so the planner always advances). -/
def splitPoint (maxLen : Nat) (s : List Char) : Nat :=
  match lastWs (s.take maxLen) with
  | some k => k + 1
  | none => max maxLen 1

theorem one_le_splitPoint (maxLen : Nat) (s : List Char) :
    1 ≤ splitPoint maxLen s := by
  unfold splitPoint
  cases lastWs (s.take maxLen) with
  | none => exact le_max_right _ _
  | some k => exact Nat.succ_le_succ (Nat.zero_le k)

/-- Modelled from the spec: repeatedly cut the text at `splitPoint` until the
remainder fits in one chunk.  Each cut consumes at least one character, so a
fuel of the text's length makes the fallback unreachable; the fuel only keeps
the recursion structural. -/
def chunksFuel (maxLen : Nat) : Nat → List Char → List (List Char)
  | 0, s => [s]
  | fuel + 1, s =>
    if s.length ≤ maxLen then [s]
    else
      s.take (splitPoint maxLen s)
        :: chunksFuel maxLen fuel (s.drop (splitPoint maxLen s))

def chunksAux (maxLen : Nat) (s : List Char) : List (List Char) :=
  chunksFuel maxLen s.length s

/-- Modelled from the spec: if the final chunk is shorter than 10% of
`maxChunkLength`, merge it into the previous chunk instead of emitting a
trailing sliver. -/
def mergeSliver (maxLen : Nat) (cs : List (List Char)) : List (List Char) :=
  match cs.reverse with
  | [] => []
  | [c] => [c]
  | last :: prev :: front =>
    if last.length * 10 < maxLen then ((prev ++ last) :: front).reverse
    else cs

/-- Modelled from the spec: ChunkPlanner — whitespace-preferring split under
the length budget, then trailing-sliver merge.  Chunks are contiguous slices
of the input, so indices and offsets are implicit in the order. -/
def chunkPlanner (maxLen : Nat) (s : List Char) : List (List Char) :=
  mergeSliver maxLen (chunksAux maxLen s)

theorem chunksFuel_flatten (maxLen : Nat) (fuel : Nat) :
    ∀ s : List Char, (chunksFuel maxLen fuel s).flatten = s := by
  induction fuel with
  | zero => intro s; simp [chunksFuel]
  | succ fuel ih =>
    intro s
    rw [chunksFuel]
    by_cases h : s.length ≤ maxLen
    · simp [h]
    · simp only [h, if_false, List.flatten_cons]
      rw [ih (s.drop (splitPoint maxLen s))]
      exact List.take_append_drop _ _

theorem chunksAux_flatten (maxLen : Nat) (s : List Char) :
    (chunksAux maxLen s).flatten = s :=
  chunksFuel_flatten maxLen s.length s

theorem mergeSliver_flatten (maxLen : Nat) (cs : List (List Char)) :
    (mergeSliver maxLen cs).flatten = cs.flatten := by
  unfold mergeSliver
  rcases hrev : cs.reverse with _ | ⟨last, _ | ⟨prev, front⟩⟩
  · have : cs = [] := by simpa using congrArg List.reverse hrev
    simp [this]
  · have : cs = [last] := by simpa using congrArg List.reverse hrev
    simp [this]
  · have hcs : cs = front.reverse ++ [prev, last] := by
      have := congrArg List.reverse hrev
      simpa using this
    by_cases hlen : last.length * 10 < maxLen
    · simp only [hlen, if_true, hcs]
      simp [List.flatten_append]
    · simp [hlen]

theorem chunkPlanner_flatten (maxLen : Nat) (s : List Char) :
    (chunkPlanner maxLen s).flatten = s := by
  unfold chunkPlanner
  rw [mergeSliver_flatten, chunksAux_flatten]

/-! ## ResponseParser (§4.5, modelled from the spec: `backend/main.py` is not
in the repository snapshot).  The model locates the first balanced-brace
structured block embedded anywhere in the raw reply and decodes the
conventional keys `names`, `dates`, `addresses`, `tables`; a reply with no
such block yields an empty `EntitySet` and no tables. -/

/-- Does `pat` occur at the head of `cs`? -/
def startsWithChars : List Char → List Char → Bool
  | [], _ => true
  | _ :: _, [] => false
  | p :: ps, c :: cs => p = c && startsWithChars ps cs

/-- Drop characters up to and including the first occurrence of `pat`;
`none` when `pat` does not occur. -/
def findAfter (pat : List Char) : List Char → Option (List Char)
  | [] => none
  | c :: cs =>
    if startsWithChars pat (c :: cs) then some ((c :: cs).drop pat.length)
    else findAfter pat cs

/-- Consume a balanced-brace block already opened at depth `depth`, returning
the accumulated block text (braces included); `none` when the braces never
balance. -/
def matchBlock : List Char → Nat → List Char → Option (List Char)
  | [], _, _ => none
  | c :: cs, depth, acc =>
    if c = '\x7b' then matchBlock cs (depth + 1) (acc ++ [c])
    else if c = '\x7d' then
      if depth = 1 then some (acc ++ [c])
      else matchBlock cs (depth - 1) (acc ++ [c])
    else matchBlock cs depth (acc ++ [c])

/-- Modelled from the spec: locate the first syntactically well-formed
structured block embedded anywhere in the reply (the model may prepend or
append commentary). -/
def findBlock : List Char → Option (List Char)
  | [] => none
  | c :: cs =>
    if c = '\x7b' then
      match matchBlock cs 1 [c] with
      | some b => some b
      | none => findBlock cs
    else findBlock cs

/-- Consume a balanced-bracket section already opened at depth `depth`,
returning the contents without the closing bracket. -/
def takeBracketed : List Char → Nat → List Char → Option (List Char)
  | [], _, _ => none
  | c :: cs, depth, acc =>
    if c = '[' then takeBracketed cs (depth + 1) (acc ++ [c])
    else if c = ']' then
      if depth = 1 then some acc
      else takeBracketed cs (depth - 1) (acc ++ [c])
    else takeBracketed cs depth (acc ++ [c])

/-- Collect every double-quoted string in the section, in order.  Each step
consumes at least one character, so a fuel of the section's length makes the
fallback unreachable; the fuel only keeps the recursion structural. -/
def extractStringsFuel : Nat → List Char → List String
  | _, [] => []
  | 0, _ :: _ => []
  | fuel + 1, c :: cs =>
    if c = '"' then
      (cs.takeWhile (· ≠ '"')).asString ::
        extractStringsFuel fuel ((cs.dropWhile (· ≠ '"')).drop 1)
    else extractStringsFuel fuel cs

def extractStrings (sec : List Char) : List String :=
  extractStringsFuel sec.length sec

/-- Top-level bracketed groups of a section (the row lists of a table).  Each
step consumes at least one character, so a fuel of the section's length makes
the fallback unreachable; the fuel only keeps the recursion structural. -/
def innerBracketsFuel : Nat → List Char → List (List Char)
  | _, [] => []
  | 0, _ :: _ => []
  | fuel + 1, c :: cs =>
    if c = '[' then
      match takeBracketed cs 1 [] with
      | some inner => inner :: innerBracketsFuel fuel (cs.drop (inner.length + 1))
      | none => innerBracketsFuel fuel cs
    else innerBracketsFuel fuel cs

def innerBrackets (sec : List Char) : List (List Char) :=
  innerBracketsFuel sec.length sec

/-- Top-level balanced-brace blocks of a section (the table objects).  Each
step consumes at least one character, so a fuel of the section's length makes
the fallback unreachable; the fuel only keeps the recursion structural. -/
def findBlocksFuel : Nat → List Char → List (List Char)
  | _, [] => []
  | 0, _ :: _ => []
  | fuel + 1, c :: cs =>
    if c = '\x7b' then
      match matchBlock cs 1 [c] with
      | some b => b :: findBlocksFuel fuel (cs.drop b.length)
      | none => findBlocksFuel fuel cs
    else findBlocksFuel fuel cs

def findBlocks (sec : List Char) : List (List Char) :=
  findBlocksFuel sec.length sec

/-- Modelled from the spec: the list value of `key` inside a block, coercing a
single string where a list was expected into a one-element list, and yielding
`[]` when the key is absent or has an unexpected shape. -/
def entityList (key : String) (b : List Char) : List String :=
  match findAfter ('"' :: (key.data ++ ['"'])) b with
  | none => []
  | some rest =>
    let v := rest.dropWhile (fun c => c ≠ '[' && c ≠ '"' && c ≠ '\x7d')
    match v with
    | '[' :: inner =>
      match takeBracketed inner 1 [] with
      | some sec => extractStrings sec
      | none => extractStrings inner
    | '"' :: inner => [(inner.takeWhile (· ≠ '"')).asString]
    | _ => []

/-- The row sections of a table block: the bracketed groups inside the
bracketed value of `rows`. -/
def rowSections (b : List Char) : List (List Char) :=
  match findAfter ('"' :: (("rows").data ++ ['"'])) b with
  | none => []
  | some rest =>
    match rest.dropWhile (· ≠ '[') with
    | '[' :: inner =>
      match takeBracketed inner 1 [] with
      | some sec => innerBrackets sec
      | none => innerBrackets inner
    | _ => []

/-- Decode one table object: headers from its `headers` list, rows from the
quoted strings of each group inside its `rows` list. -/
def decodeTable (b : List Char) : Table :=
  { headers := entityList "headers" b
  , rows := (rowSections b).map extractStrings }

/-- The table blocks inside the bracketed value of `tables`. -/
def tableBlocks (b : List Char) : List (List Char) :=
  match findAfter ('"' :: (("tables").data ++ ['"'])) b with
  | none => []
  | some rest =>
    match rest.dropWhile (· ≠ '[') with
    | '[' :: inner =>
      match takeBracketed inner 1 [] with
      | some sec => findBlocks sec
      | none => findBlocks inner
    | _ => []

/-- Modelled from the spec: decode a structured block into typed fields;
unknown or extra fields are ignored. -/
def decodeBlock (b : List Char) : EntitySet × List Table :=
  ({ names := entityList "names" b
   , dates := entityList "dates" b
   , addresses := entityList "addresses" b },
   (tableBlocks b).map decodeTable)

/-- Modelled from the spec: ResponseParser — tolerant, best-effort per-chunk
parse.  A reply with no well-formed structured block degrades to an empty
`EntitySet` and empty table list instead of failing. -/
def parseResponse (reply : String) : EntitySet × List Table :=
  match findBlock reply.data with
  | none => (emptyEntitySet, [])
  | some b => decodeBlock b

/-! ## Merge and normalization (§4.6 and §3 invariants, modelled from the
spec: `backend/main.py` is not in the repository snapshot) -/

/-- Append `x` unless it is already present (case-sensitive exact match),
keeping first-insertion order. -/
def insertUnique (xs : List String) (x : String) : List String :=
  if x ∈ xs then xs else xs ++ [x]

/-- Modelled from the spec: union one chunk's field into the accumulated
field with de-duplication. -/
def dedupAppend (acc : List String) (new : List String) : List String :=
  new.foldl insertUnique acc

/-- Modelled from the spec: EntitySet fields are unioned across chunks with
de-duplication, insertion order preserved. -/
def mergeEntitySets (sets : List EntitySet) : EntitySet :=
  { names := sets.foldl (fun acc e => dedupAppend acc e.names) []
  , dates := sets.foldl (fun acc e => dedupAppend acc e.dates) []
  , addresses := sets.foldl (fun acc e => dedupAppend acc e.addresses) [] }

/-- Modelled from the spec: right-pad a short row with empty strings and
truncate a long one, so the result has exactly `headers.length` cells. -/
def normalizeRow (headers : List String) (row : List String) : List String :=
  (row ++ List.replicate (headers.length - row.length) "").take headers.length

/-- Modelled from the spec: normalize every row of a table against its
headers. -/
def normalizeTable (t : Table) : Table :=
  { headers := t.headers, rows := t.rows.map (normalizeRow t.headers) }

/-! ## Orchestrator (§4.6, modelled from the spec: `backend/main.py` is not in
the repository snapshot).  The per-chunk transport outcome is abstracted as an
oracle from chunk index to `Option String` (`none` = terminal transport
failure after retry exhaustion; the conservative any-chunk-fails-the-request
aggregate policy).  The second component of the result counts the OCR
submissions issued. -/

inductive HealthState where
  | online
  | offline
  | unknown
  deriving DecidableEq, Repr

/-- Modelled from the spec: the request pipeline — health gate, chunking,
per-chunk OCR dispatch, tolerant parsing, merge, table normalization.
Offline health short-circuits to a `ServiceUnavailable` failure with zero
submissions; transport failure on any chunk fails the request; unparseable
replies degrade to empty partial results with `success := true`. -/
def runPipeline (health : HealthState) (maxLen : Nat) (text : String)
    (oracle : Nat → Option String) : ProcessingResult × Nat :=
  if health = HealthState.offline then
    ({ extractedText := "", entities := emptyEntitySet, tables := []
     , success := false, errorMessage := some "ServiceUnavailable" }, 0)
  else
    let chunks := chunkPlanner maxLen text.data
    let replies := (List.range chunks.length).map oracle
    if replies.any Option.isNone then
      ({ extractedText := text, entities := emptyEntitySet, tables := []
       , success := false, errorMessage := some "ServiceUnavailable" },
       chunks.length)
    else
      let parts := replies.map (fun r => parseResponse (r.getD ""))
      ({ extractedText := text
       , entities := mergeEntitySets (parts.map Prod.fst)
       , tables := ((parts.map Prod.snd).flatten).map normalizeTable
       , success := true, errorMessage := none }, chunks.length)

/-! ## Frontend model (embedded from `frontend/src/App.js`).  Node data and
update payloads are association lists standing for JS objects; `mergeData`
models the right-biased object spread `\x7b ...node.data, ...newData \x7d`. -/

/-- A file as seen by the upload handlers: name and MIME type. -/
structure FileInfo where
  name : String
  type : String
  deriving DecidableEq, Repr

/-- A React Flow node: id plus its data object. -/
structure Node where
  id : String
  data : List (String × String)
  deriving DecidableEq, Repr

/-- A React Flow edge: id, endpoints and the animation flag. -/
structure Edge where
  id : String
  source : String
  target : String
  animated : Bool
  deriving DecidableEq, Repr

/-- First-match lookup in an association list (JS object field read). -/
def lookupData (d : List (String × String)) (k : String) : Option String :=
  match d with
  | [] => none
  | (k0, v) :: rest => if k0 = k then some v else lookupData rest k

/-- JS object spread `\x7b ...old, ...new \x7d`: entries of `new` override
entries of `old` with the same key. -/
def mergeData (old new : List (String × String)) : List (String × String) :=
  old.filter (fun p => (lookupData new p.1).isNone) ++ new

/-- `updateNodeData` from App.js: map over the node list, merging `newData`
into the data of the node whose id matches. -/
def updateNodeData (nodes : List Node) (nodeId : String)
    (newData : List (String × String)) : List Node :=
  nodes.map (fun node =>
    if node.id = nodeId then { node with data := mergeData node.data newData }
    else node)

/-- `updateEdgeAnimation` from App.js: map over the edge list, replacing the
`animated` flag of the edge whose id matches. -/
def updateEdgeAnimation (edges : List Edge) (edgeId : String)
    (animated : Bool) : List Edge :=
  edges.map (fun edge =>
    if edge.id = edgeId then { edge with animated := animated }
    else edge)

/-- The `transformedResults` the client builds from a successful
`/process-pdf` response: `text`, `entities`, `tables`. -/
structure TransformedResults where
  text : String
  entities : EntitySet
  tables : List Table
  deriving DecidableEq, Repr

/-- The React component state touched by the handlers under study. -/
structure AppState where
  nodes : List Node
  edges : List Edge
  selectedFile : Option FileInfo
  results : Option TransformedResults
  isProcessing : Bool
  error : Option String
  apiStatus : String
  ocrApiStatus : String
  deriving DecidableEq, Repr

/-- `initialNodes` from App.js (positions omitted; they are never read by the
handlers). -/
def initialNodes : List Node :=
  [ { id := "pdf", data := [("fileName", "")] }
  , { id := "processing", data := [("status", "idle")] }
  , { id := "output", data := [("hasResults", "false")] } ]

/-- `initialEdges` from App.js (style omitted; it is never read by the
handlers). -/
def initialEdges : List Edge :=
  [ { id := "pdf-processing", source := "pdf", target := "processing", animated := false }
  , { id := "processing-output", source := "processing", target := "output", animated := false } ]

/-- The component's initial state: no file, no results, not processing, both
status indicators `"unknown"`. -/
def initialAppState : AppState :=
  { nodes := initialNodes
  , edges := initialEdges
  , selectedFile := none
  , results := none
  , isProcessing := false
  , error := none
  , apiStatus := "unknown"
  , ocrApiStatus := "unknown" }

/-- Outcome of the `/health` fetch as the client observes it: the fetch threw,
the response was not ok, or it was ok with an optional `ocr_api_status`
field. -/
inductive HealthFetch where
  | failed
  | notOk
  | ok (ocrField : Option String)
  deriving DecidableEq, Repr

/-- `checkApiHealth` from App.js.  On an ok response the client stores
`data.ocr_api_status || 'unknown'`; the empty string is falsy in JS, so a
present-but-empty field also becomes `"unknown"`. -/
def checkApiHealth (st : AppState) (r : HealthFetch) : AppState :=
  match r with
  | HealthFetch.failed => { st with apiStatus := "offline", ocrApiStatus := "unknown" }
  | HealthFetch.notOk => { st with apiStatus := "offline", ocrApiStatus := "unknown" }
  | HealthFetch.ok f =>
    { st with apiStatus := "online"
            , ocrApiStatus :=
                match f with
                | none => "unknown"
                | some s => if s = "" then "unknown" else s }

/-- `handleFileUpload` from App.js: accept the selected file only when it
exists and its MIME type is `application/pdf`; otherwise surface a validation
error and leave the selection unchanged. -/
def handleFileUpload (st : AppState) (file : Option FileInfo) : AppState :=
  match file with
  | some f =>
    if f.type = "application/pdf" then
      let st1 := { st with selectedFile := some f, error := none }
      { st1 with nodes := updateNodeData st1.nodes "pdf" [("fileName", f.name)] }
    else { st with error := some "Please select a valid PDF file" }
  | none => { st with error := some "Please select a valid PDF file" }

/-- `handleDrop` from App.js: with at least one dropped file, accept the first
only when its MIME type is `application/pdf`; otherwise surface a validation
error and leave the selection unchanged. -/
def handleDrop (st : AppState) (files : List FileInfo) : AppState :=
  match files with
  | [] => st
  | f :: _ =>
    if f.type = "application/pdf" then
      let st1 := { st with selectedFile := some f, error := none }
      { st1 with nodes := updateNodeData st1.nodes "pdf" [("fileName", f.name)] }
    else { st with error := some "Please drop a valid PDF file" }

/-- The parsed JSON body of a `/process-pdf` response. -/
structure ProcessResponse where
  success : Bool
  extracted_text : String
  entities : EntitySet
  tables : List Table
  error : Option String
  deriving DecidableEq, Repr

/-- Outcome of the `/process-pdf` fetch as the client observes it: the fetch
threw, the response was not ok (with the optional `detail` of its error
body), or it was ok with a parsed JSON body. -/
inductive FetchOutcome where
  | netError (msg : String)
  | httpError (status : Nat) (detail : Option String)
  | okJson (data : ProcessResponse)
  deriving DecidableEq, Repr

/-- JS `x || fallback` on an optional string field: both an absent field and
the empty string are falsy and yield the fallback. -/
def orFalsy (x : Option String) (fallback : String) : String :=
  match x with
  | none => fallback
  | some s => if s = "" then fallback else s

/-- The try/catch body of `processPDF` from App.js after the fetch resolves:
on `success:true` populate `results` from `extracted_text` and `ocr_result`
and mark the pipeline nodes complete; otherwise the thrown error
(`errorData.detail || ...` and `data.error || 'Processing failed'`, with JS
`||` falsiness) is caught and surfaced as `error`, leaving `results`
untouched. -/
def processPDFResponse (st : AppState) (outcome : FetchOutcome) : AppState :=
  match outcome with
  | FetchOutcome.netError msg =>
    { st with error := some ("Failed to process PDF: " ++ msg) }
  | FetchOutcome.httpError status detail =>
    { st with error := some ("Failed to process PDF: "
        ++ orFalsy detail ("HTTP error! status: " ++ toString status)) }
  | FetchOutcome.okJson data =>
    if data.success then
      let newResults : TransformedResults :=
        { text := data.extracted_text, entities := data.entities
        , tables := data.tables }
      let st1 := { st with results := some newResults }
      let st2 := { st1 with
        nodes := updateNodeData st1.nodes "processing" [("status", "completed")] }
      let st3 := { st2 with
        nodes := updateNodeData st2.nodes "output" [("hasResults", "true")] }
      { st3 with
        edges := updateEdgeAnimation st3.edges "processing-output" true }
    else
      { st with error := some ("Failed to process PDF: "
          ++ orFalsy data.error "Processing failed") }

/-- The message `processPDF` surfaces when the backend health state is
offline. -/
def backendOfflineMsg : String :=
  "FastAPI backend is offline. Please make sure the server is running on port 8000."

/-- `processPDF` from App.js.  The boolean result records whether the fetch to
`/process-pdf` was issued: the no-file and offline guards return before any
network call; past the guards the processing state is entered, the response
handled, and the `finally` block clears `isProcessing` and the
`pdf-processing` edge animation on every path. -/
def processPDF (st : AppState) (outcome : FetchOutcome) : AppState × Bool :=
  if st.selectedFile.isNone then
    ({ st with error := some "Please select a PDF file first" }, false)
  else if st.apiStatus = "offline" then
    ({ st with error := some backendOfflineMsg }, false)
  else
    let st1 := { st with isProcessing := true, error := none }
    let st2 := { st1 with
      nodes := updateNodeData st1.nodes "processing" [("status", "processing")] }
    let st3 := { st2 with
      edges := updateEdgeAnimation st2.edges "pdf-processing" true }
    let st4 := processPDFResponse st3 outcome
    ({ st4 with isProcessing := false
              , edges := updateEdgeAnimation st4.edges "pdf-processing" false },
     true)

/-! ## Supporting lemmas -/

theorem insertUnique_nodup {xs : List String} (h : xs.Nodup) (x : String) :
    (insertUnique xs x).Nodup := by
  unfold insertUnique
  by_cases hx : x ∈ xs
  · simpa [hx] using h
  · simp only [hx, if_false]
    exact List.Nodup.append h (List.nodup_singleton x)
      (by simpa [List.disjoint_singleton] using hx)

theorem foldl_insertUnique_nodup (new : List String) :
    ∀ acc : List String, acc.Nodup → (new.foldl insertUnique acc).Nodup := by
  induction new with
  | nil => intro acc h; simpa using h
  | cons x xs ih =>
    intro acc h
    exact ih (insertUnique acc x) (insertUnique_nodup h x)

theorem foldl_insertUnique_append (acc : List String) (new : List String) :
    ∃ t : List String, t.Sublist new ∧
      new.foldl insertUnique acc = acc ++ t := by
  induction new generalizing acc with
  | nil => exact ⟨[], List.Sublist.refl [], by simp⟩
  | cons x xs ih =>
    rcases ih (insertUnique acc x) with ⟨t, hsub, heq⟩
    by_cases hx : x ∈ acc
    · refine ⟨t, hsub.cons x, ?_⟩
      simpa [insertUnique, hx] using heq
    · refine ⟨x :: t, hsub.cons₂ x, ?_⟩
      rw [List.foldl_cons, heq]
      simp [insertUnique, hx]

theorem mergeField_eq_foldl (f : EntitySet → List String) (sets : List EntitySet) :
    ∀ acc : List String,
      sets.foldl (fun acc e => dedupAppend acc (f e)) acc
        = ((sets.map f).flatten).foldl insertUnique acc := by
  induction sets with
  | nil => intro acc; simp
  | cons e es ih =>
    intro acc
    simp only [List.foldl_cons, List.map_cons, List.flatten_cons,
      List.foldl_append]
    exact ih (dedupAppend acc (f e))

theorem mergeEntitySets_names_nodup (sets : List EntitySet) :
    (mergeEntitySets sets).names.Nodup := by
  unfold mergeEntitySets
  simp only
  rw [mergeField_eq_foldl (fun e => e.names) sets []]
  exact foldl_insertUnique_nodup _ [] List.nodup_nil

theorem mergeEntitySets_dates_nodup (sets : List EntitySet) :
    (mergeEntitySets sets).dates.Nodup := by
  unfold mergeEntitySets
  simp only
  rw [mergeField_eq_foldl (fun e => e.dates) sets []]
  exact foldl_insertUnique_nodup _ [] List.nodup_nil

theorem mergeEntitySets_addresses_nodup (sets : List EntitySet) :
    (mergeEntitySets sets).addresses.Nodup := by
  unfold mergeEntitySets
  simp only
  rw [mergeField_eq_foldl (fun e => e.addresses) sets []]
  exact foldl_insertUnique_nodup _ [] List.nodup_nil

theorem mergeEntitySets_names_sublist (sets : List EntitySet) :
    (mergeEntitySets sets).names.Sublist ((sets.map (fun e => e.names)).flatten) := by
  unfold mergeEntitySets
  simp only
  rw [mergeField_eq_foldl (fun e => e.names) sets []]
  rcases foldl_insertUnique_append [] ((sets.map (fun e => e.names)).flatten)
    with ⟨t, hsub, heq⟩
  rw [heq]
  simpa using hsub

theorem mergeEntitySets_all_empty (sets : List EntitySet)
    (h : ∀ e ∈ sets, e = emptyEntitySet) :
    mergeEntitySets sets = emptyEntitySet := by
  induction sets with
  | nil => rfl
  | cons e es ih =>
    have he : e = emptyEntitySet := h e (List.mem_cons_self e es)
    have hrest : ∀ x ∈ es, x = emptyEntitySet :=
      fun x hx => h x (List.mem_cons_of_mem e hx)
    have ihres := ih hrest
    unfold mergeEntitySets at ihres ⊢
    simp only [List.foldl_cons, he]
    simpa [emptyEntitySet, dedupAppend] using ihres

theorem lookupData_append (l1 l2 : List (String × String)) (k : String) :
    lookupData (l1 ++ l2) k =
      match lookupData l1 k with
      | some v => some v
      | none => lookupData l2 k := by
  induction l1 with
  | nil => simp [lookupData]
  | cons p rest ih =>
    rcases p with ⟨k0, v⟩
    by_cases hk : k0 = k
    · simp [lookupData, hk]
    · simpa [lookupData, hk] using ih

theorem lookupData_filter_of_some (old new : List (String × String))
    (k : String) (v : String) (h : lookupData new k = some v) :
    lookupData (old.filter (fun p => (lookupData new p.1).isNone)) k = none := by
  induction old with
  | nil => simp [lookupData]
  | cons p rest ih =>
    rcases p with ⟨k0, w⟩
    by_cases hk : k0 = k
    · subst hk
      simp only [List.filter_cons, h, Option.isNone_some]
      simpa using ih
    · by_cases hp : (lookupData new k0).isNone
      · simpa [List.filter_cons, hp, lookupData, hk] using ih
      · simpa [List.filter_cons, hp] using ih

theorem lookupData_filter_of_none (old new : List (String × String))
    (k : String) (h : lookupData new k = none) :
    lookupData (old.filter (fun p => (lookupData new p.1).isNone)) k
      = lookupData old k := by
  induction old with
  | nil => simp
  | cons p rest ih =>
    rcases p with ⟨k0, w⟩
    by_cases hk : k0 = k
    · subst hk
      simp [List.filter_cons, h, lookupData]
    · by_cases hp : (lookupData new k0).isNone
      · simpa [List.filter_cons, hp, lookupData, hk] using ih
      · simpa [List.filter_cons, hp, lookupData, hk] using ih

theorem lookupData_mergeData (old new : List (String × String)) (k : String) :
    lookupData (mergeData old new) k =
      match lookupData new k with
      | some v => some v
      | none => lookupData old k := by
  unfold mergeData
  rw [lookupData_append]
  cases hnew : lookupData new k with
  | some v => rw [lookupData_filter_of_some old new k v hnew]
  | none =>
    rw [lookupData_filter_of_none old new k hnew]
    cases hold : lookupData old k <;> simp [hnew]

theorem updateEdgeAnimation_mem_off (edges : List Edge) (edgeId : String)
    (e : Edge) (hmem : e ∈ updateEdgeAnimation edges edgeId false)
    (hid : e.id = edgeId) : e.animated = false := by
  unfold updateEdgeAnimation at hmem
  rcases List.mem_map.mp hmem with ⟨e0, _, heq⟩
  by_cases h0 : e0.id = edgeId
  · simp only [h0, if_true] at heq
    rw [← heq]
  · simp only [h0, if_false] at heq
    rw [← heq] at hid
    exact absurd hid h0

theorem foldl_insertUnique_sublist (l : List String) :
    (l.foldl insertUnique []).Sublist l := by
  rcases foldl_insertUnique_append [] l with ⟨t, hsub, heq⟩
  rw [heq]
  simpa using hsub

theorem mergeEntitySets_names_eq (sets : List EntitySet) :
    (mergeEntitySets sets).names
      = ((sets.map (fun e => e.names)).flatten).foldl insertUnique [] := by
  unfold mergeEntitySets
  exact mergeField_eq_foldl (fun e => e.names) sets []

theorem mergeEntitySets_dates_eq (sets : List EntitySet) :
    (mergeEntitySets sets).dates
      = ((sets.map (fun e => e.dates)).flatten).foldl insertUnique [] := by
  unfold mergeEntitySets
  exact mergeField_eq_foldl (fun e => e.dates) sets []

theorem mergeEntitySets_addresses_eq (sets : List EntitySet) :
    (mergeEntitySets sets).addresses
      = ((sets.map (fun e => e.addresses)).flatten).foldl insertUnique [] := by
  unfold mergeEntitySets
  exact mergeField_eq_foldl (fun e => e.addresses) sets []

theorem normalizeRow_length (headers row : List String) :
    (normalizeRow headers row).length = headers.length := by
  simp only [normalizeRow, List.length_take, List.length_append,
    List.length_replicate]
  omega

theorem normalizeRow_pad (headers row : List String)
    (h : row.length ≤ headers.length) :
    normalizeRow headers row
      = row ++ List.replicate (headers.length - row.length) "" := by
  unfold normalizeRow
  apply List.take_of_length_le
  simp only [List.length_append, List.length_replicate]
  omega

theorem normalizeRow_trunc (headers row : List String)
    (h : headers.length ≤ row.length) :
    normalizeRow headers row = row.take headers.length := by
  unfold normalizeRow
  have hz : headers.length - row.length = 0 := Nat.sub_eq_zero_of_le h
  simp [hz]

/-! ## Claims -/

/-- C2: For every input text `T` and every chunk size `L`, concatenating
ChunkPlanner's output chunks reconstructs `T` exactly — the ordered chunk
sequence covers the input exactly once, in order, with no character lost and
none duplicated. -/
theorem C2_chunkPlanner_reconstructs (L : Nat) (T : List Char) :
    (chunkPlanner L T).flatten = T :=
  chunkPlanner_flatten L T

/-- C5: In every merged `ProcessingResult`, each `EntitySet` field contains no
duplicates under case-sensitive exact match, first-insertion order is
preserved (the merged field is a sublist of the concatenated per-chunk
fields), and two chunks each yielding `"John Smith"` merge to exactly one
`"John Smith"`. -/
theorem C5_merge_dedup :
    (∀ sets : List EntitySet,
      (mergeEntitySets sets).names.Nodup ∧
      (mergeEntitySets sets).dates.Nodup ∧
      (mergeEntitySets sets).addresses.Nodup ∧
      (mergeEntitySets sets).names.Sublist
        ((sets.map (fun e => e.names)).flatten) ∧
      (mergeEntitySets sets).dates.Sublist
        ((sets.map (fun e => e.dates)).flatten) ∧
      (mergeEntitySets sets).addresses.Sublist
        ((sets.map (fun e => e.addresses)).flatten)) ∧
    (mergeEntitySets
      [ { names := ["John Smith"], dates := [], addresses := [] }
      , { names := ["John Smith"], dates := [], addresses := [] } ]).names
      = ["John Smith"] := by
  constructor
  · intro sets
    refine ⟨?_, ?_, ?_, ?_, ?_, ?_⟩
    · rw [mergeEntitySets_names_eq]
      exact foldl_insertUnique_nodup _ [] List.nodup_nil
    · rw [mergeEntitySets_dates_eq]
      exact foldl_insertUnique_nodup _ [] List.nodup_nil
    · rw [mergeEntitySets_addresses_eq]
      exact foldl_insertUnique_nodup _ [] List.nodup_nil
    · rw [mergeEntitySets_names_eq]
      exact foldl_insertUnique_sublist _
    · rw [mergeEntitySets_dates_eq]
      exact foldl_insertUnique_sublist _
    · rw [mergeEntitySets_addresses_eq]
      exact foldl_insertUnique_sublist _
  · decide

/-- C6: Every row of every table in a final `ProcessingResult` has exactly as
many cells as the table's headers; shorter rows are right-padded with empty
strings, longer rows are truncated, and the normalization is total (never a
fatal error). -/
theorem C6_table_rows_normalized :
    (∀ (health : HealthState) (maxLen : Nat) (text : String)
        (oracle : Nat → Option String),
      ∀ t ∈ (runPipeline health maxLen text oracle).1.tables,
      ∀ r ∈ t.rows, r.length = t.headers.length) ∧
    (∀ headers row : List String, row.length ≤ headers.length →
      normalizeRow headers row
        = row ++ List.replicate (headers.length - row.length) "") ∧
    (∀ headers row : List String, headers.length ≤ row.length →
      normalizeRow headers row = row.take headers.length) := by
  refine ⟨?_, normalizeRow_pad, normalizeRow_trunc⟩
  intro health maxLen text oracle t ht r hr
  unfold runPipeline at ht
  by_cases hoff : health = HealthState.offline
  · simp [hoff] at ht
  · simp only [hoff, if_false] at ht
    by_cases hany :
        (((List.range (chunkPlanner maxLen text.data).length).map
          oracle).any Option.isNone)
    · simp [hany] at ht
    · simp only [hany, if_false] at ht
      rcases List.mem_map.mp ht with ⟨t0, _, heq⟩
      subst heq
      rcases List.mem_map.mp hr with ⟨r0, _, heqr⟩
      subst heqr
      exact normalizeRow_length t0.headers r0

/-- The structured-block-free reply used to witness tolerant degradation. -/
def plainReply : String := "no block here"

/-- A reply whose structured block contains one table with a short row, used
to witness row normalization in a final result. -/
def c6OracleReply : String :=
  "\x7b\"names\": [], \"tables\": [\x7b\"headers\": [\"a\",\"b\"], \"rows\": [[\"1\"]]\x7d]\x7d"

/-- A PDF file as the upload handlers accept it. -/
def sampleFile : FileInfo := { name := "doc.pdf", type := "application/pdf" }

/-- A non-PDF file as the upload handlers reject it. -/
def textFile : FileInfo := { name := "notes.txt", type := "text/plain" }

/-- Component state with a file selected and the backend online: both
`processPDF` guards pass. -/
def readyState : AppState :=
  { initialAppState with selectedFile := some sampleFile, apiStatus := "online" }

/-- Component state with a file selected but the backend health offline. -/
def offlineState : AppState :=
  { initialAppState with selectedFile := some sampleFile, apiStatus := "offline" }

/-- A successful `/process-pdf` response body with empty findings. -/
def sampleResponse : ProcessResponse :=
  { success := true, extracted_text := "some text"
  , entities := emptyEntitySet, tables := [], error := none }

/-- C1: a raw OCR reply in which no well-formed structured block can be
located parses to an empty `EntitySet` and an empty table list, and a request
whose chunks all produce such replies (with transport succeeding) still
completes with `success := true` — a request never fails solely because of
unparseable model output. -/
theorem C1_unparseable_degrades :
    ∀ (health : HealthState) (maxLen : Nat) (text : String)
      (oracle : Nat → Option String),
      health ≠ HealthState.offline →
      (∀ i : Nat, ∃ s : String, oracle i = some s ∧ findBlock s.data = none) →
      ((∀ i s, oracle i = some s → parseResponse s = (emptyEntitySet, [])) ∧
       (runPipeline health maxLen text oracle).1.success = true ∧
       (runPipeline health maxLen text oracle).1.entities = emptyEntitySet ∧
       (runPipeline health maxLen text oracle).1.tables = []) := by
  intro health maxLen text oracle hh hun
  have hparse : ∀ i s, oracle i = some s →
      parseResponse s = (emptyEntitySet, []) := by
    intro i s hs
    rcases hun i with ⟨s', hs', hfb⟩
    rw [hs] at hs'
    injection hs' with hss
    subst hss
    unfold parseResponse
    rw [hfb]
  have hpart : ∀ r ∈ (List.range (chunkPlanner maxLen text.data).length).map
      oracle, parseResponse (r.getD "") = (emptyEntitySet, []) := by
    intro r hr
    rcases List.mem_map.mp hr with ⟨i, _, hi⟩
    rcases hun i with ⟨s, hs, _⟩
    rw [← hi, hs]
    simp only [Option.getD_some]
    exact hparse i s hs
  have hnone : (((List.range (chunkPlanner maxLen text.data).length).map
      oracle).any Option.isNone) = false := by
    rw [List.any_eq_false]
    intro r hr
    rcases List.mem_map.mp hr with ⟨i, _, hi⟩
    rcases hun i with ⟨s, hs, _⟩
    rw [← hi, hs]
    simp
  refine ⟨hparse, ?_⟩
  unfold runPipeline
  simp only [hh, if_false, hnone, Bool.false_eq_true, ite_false]
  refine ⟨by trivial, ?_, ?_⟩
  · apply mergeEntitySets_all_empty
    intro e he
    rcases List.mem_map.mp he with ⟨p, hp, hpe⟩
    rcases List.mem_map.mp hp with ⟨r, hr, hrp⟩
    rw [← hpe, ← hrp, hpart r hr]
  · have hflat : ((((List.range (chunkPlanner maxLen text.data).length).map
        oracle).map (fun r => parseResponse (r.getD ""))).map
          Prod.snd).flatten = ([] : List Table) := by
      rw [List.flatten_eq_nil_iff]
      intro l hl
      rcases List.mem_map.mp hl with ⟨p, hp, hpl⟩
      rcases List.mem_map.mp hp with ⟨r, hr, hrp⟩
      rw [← hpl, ← hrp, hpart r hr]
    rw [hflat]
    rfl

/-- C1 witness: one chunk, transport succeeding, reply with no structured
block — the request completes with `success := true`. -/
theorem C1_witness :
    (runPipeline HealthState.online 4000 "hello"
      (fun _ => some plainReply)).1.success = true :=
  (C1_unparseable_degrades HealthState.online 4000 "hello"
    (fun _ => some plainReply) (by decide)
    (fun _ => ⟨plainReply, rfl, by decide⟩)).2.1

/-- C3: when the health state is offline, initiating processing issues no
network call and the request ends in failure — the frontend guard returns
before the fetch with an error surfaced and no state entered, and the
orchestrator short-circuits to a `ServiceUnavailable` failure with zero OCR
submissions. -/
theorem C3_offline_no_network :
    (∀ (st : AppState) (outcome : FetchOutcome),
      st.apiStatus = "offline" →
      ((processPDF st outcome).2 = false ∧
       (processPDF st outcome).1.results = st.results ∧
       (processPDF st outcome).1.isProcessing = st.isProcessing ∧
       (processPDF st outcome).1.error.isSome = true)) ∧
    (∀ (maxLen : Nat) (text : String) (oracle : Nat → Option String),
      (runPipeline HealthState.offline maxLen text oracle).2 = 0 ∧
      (runPipeline HealthState.offline maxLen text oracle).1.success = false ∧
      (runPipeline HealthState.offline maxLen text oracle).1.errorMessage
        = some "ServiceUnavailable") := by
  constructor
  · intro st outcome hoff
    unfold processPDF
    by_cases hfile : st.selectedFile.isNone
    · simp [hfile]
    · simp [hfile, hoff]
  · intro maxLen text oracle
    unfold runPipeline
    simp

/-- C3 witness: with a file selected and the backend reported offline, the
frontend issues no fetch to the processing endpoint. -/
theorem C3_witness :
    (processPDF offlineState (FetchOutcome.netError "unreached")).2 = false :=
  (C3_offline_no_network.1 offlineState (FetchOutcome.netError "unreached")
    rfl).1

/-- C4: the caller can distinguish failure from an empty success — a
`success:true` response populates `results` from `extracted_text` and
`ocr_result` (even when entities and tables are empty) leaving `error`
untouched, while a `success:false` response takes the error path, surfacing
the response's error message verbatim when it is present and non-empty (JS
falsiness selects the `'Processing failed'` fallback otherwise), and leaves
`results` unchanged. -/
theorem C4_success_vs_failure :
    ∀ (st : AppState) (data : ProcessResponse),
      (data.success = true →
        (processPDFResponse st (FetchOutcome.okJson data)).results
          = some { text := data.extracted_text, entities := data.entities
                 , tables := data.tables } ∧
        (processPDFResponse st (FetchOutcome.okJson data)).error = st.error) ∧
      (data.success = false →
        (processPDFResponse st (FetchOutcome.okJson data)).error
          = some ("Failed to process PDF: "
              ++ orFalsy data.error "Processing failed") ∧
        (∀ s : String, data.error = some s → s ≠ "" →
          (processPDFResponse st (FetchOutcome.okJson data)).error
            = some ("Failed to process PDF: " ++ s)) ∧
        ((data.error = none ∨ data.error = some "") →
          (processPDFResponse st (FetchOutcome.okJson data)).error
            = some "Failed to process PDF: Processing failed") ∧
        (processPDFResponse st (FetchOutcome.okJson data)).results
          = st.results) := by
  intro st data
  constructor
  · intro hs
    unfold processPDFResponse
    simp [hs]
  · intro hs
    unfold processPDFResponse
    refine ⟨by simp [hs], ?_, ?_, by simp [hs]⟩
    · intro s hserr hsne
      simp [hs, hserr, orFalsy, hsne]
    · intro hfalsy
      rcases hfalsy with hf | hf <;> simp [hs, hf, orFalsy]

/-- C4 witness: a `success:true` response with empty findings populates
`results` and leaves `error` untouched. -/
theorem C4_witness :
    (processPDFResponse initialAppState
        (FetchOutcome.okJson sampleResponse)).results
      = some { text := sampleResponse.extracted_text
             , entities := sampleResponse.entities
             , tables := sampleResponse.tables } ∧
    (processPDFResponse initialAppState
        (FetchOutcome.okJson sampleResponse)).error
      = initialAppState.error :=
  (C4_success_vs_failure initialAppState sampleResponse).1 rfl

/-- C7: a file whose MIME type is not `application/pdf`, whether selected via
the file input or dropped, surfaces a validation error and is not accepted:
the selected file is unchanged. -/
theorem C7_nonpdf_rejected :
    ∀ (st : AppState) (f : FileInfo) (rest : List FileInfo),
      f.type ≠ "application/pdf" →
      ((handleFileUpload st (some f)).error
          = some "Please select a valid PDF file" ∧
       (handleFileUpload st (some f)).selectedFile = st.selectedFile ∧
       (handleDrop st (f :: rest)).error
          = some "Please drop a valid PDF file" ∧
       (handleDrop st (f :: rest)).selectedFile = st.selectedFile) := by
  intro st f rest h
  unfold handleFileUpload handleDrop
  simp [h]

/-- C7 witness: a `text/plain` file is rejected by both handlers with the
selection unchanged. -/
theorem C7_witness :
    (handleFileUpload initialAppState (some textFile)).error
        = some "Please select a valid PDF file" ∧
    (handleFileUpload initialAppState (some textFile)).selectedFile
        = initialAppState.selectedFile ∧
    (handleDrop initialAppState [textFile]).error
        = some "Please drop a valid PDF file" ∧
    (handleDrop initialAppState [textFile]).selectedFile
        = initialAppState.selectedFile :=
  C7_nonpdf_rejected initialAppState textFile [] (by decide)

/-- C8 counterexample: the claim — the displayed OCR status always mirrors
the response's `ocr_api_status` field, and is `"unknown"` exactly when the
first check has not completed, the field is omitted, or the request fails or
returns non-ok — is false: a health response carrying `ocr_api_status := ""`
(present but falsy) displays `"unknown"`, not the field's value. -/
theorem C8_counterexample :
    ¬ (initialAppState.ocrApiStatus = "unknown" ∧
       ∀ (st : AppState) (r : HealthFetch),
        (∀ s : String, r = HealthFetch.ok (some s) →
          (checkApiHealth st r).ocrApiStatus = s) ∧
        ((checkApiHealth st r).ocrApiStatus = "unknown" ↔
          (r = HealthFetch.failed ∨ r = HealthFetch.notOk ∨
            r = HealthFetch.ok none))) := by
  intro h
  have hm := (h.2 initialAppState (HealthFetch.ok (some ""))).1 "" rfl
  have hu : ("unknown" : String) = "" := by
    simpa [checkApiHealth] using hm
  exact absurd hu (by decide)

/-- C8 (amended): the displayed OCR status mirrors the `/health` response's
`ocr_api_status` field whenever the request is ok and the field is present
and non-empty, and it is `"unknown"` exactly when: before the first check
completes, the request fails or returns non-ok, the field is omitted or
empty (JS falsiness of `data.ocr_api_status || 'unknown'`), or the field
itself is the string `"unknown"`. -/
theorem C8_amended_status_mirror :
    (∀ (st : AppState) (s : String), s ≠ "" →
      (checkApiHealth st (HealthFetch.ok (some s))).ocrApiStatus = s) ∧
    (∀ (st : AppState) (r : HealthFetch),
      ((checkApiHealth st r).ocrApiStatus = "unknown" ↔
        (r = HealthFetch.failed ∨ r = HealthFetch.notOk ∨
          r = HealthFetch.ok none ∨ r = HealthFetch.ok (some "") ∨
          r = HealthFetch.ok (some "unknown")))) ∧
    initialAppState.ocrApiStatus = "unknown" := by
  refine ⟨?_, ?_, rfl⟩
  · intro st s hs
    simp [checkApiHealth, hs]
  · intro st r
    cases r with
    | failed => simp [checkApiHealth]
    | notOk => simp [checkApiHealth]
    | ok f =>
      cases f with
      | none => simp [checkApiHealth]
      | some s =>
        by_cases hs : s = ""
        · subst hs
          simp [checkApiHealth]
        · simp only [checkApiHealth, hs, if_false]
          constructor
          · intro hu
            right; right; right; right
            rw [hu]
          · intro hc
            rcases hc with hc | hc | hc | hc | hc
            · exact absurd hc (by simp)
            · exact absurd hc (by simp)
            · exact absurd hc (by simp)
            · injection hc with h1
              injection h1 with h2
              exact absurd h2 hs
            · injection hc with h1
              injection h1 with h2

/-- C8 witness (for the amended claim): an ok health response with
`ocr_api_status := "online"` is mirrored verbatim. -/
theorem C8_witness :
    (checkApiHealth initialAppState
      (HealthFetch.ok (some "online"))).ocrApiStatus = "online" :=
  C8_amended_status_mirror.1 initialAppState "online" (by decide)

/-- C9: `updateNodeData` and `updateEdgeAnimation` modify only the element
whose id matches — the matching node's data becomes the spread-merge of its
old data with the update (other fields looked up unchanged), the matching
edge only has its `animated` flag replaced — and every non-matching element
is returned unchanged at its position. -/
theorem C9_targeted_update :
    ∀ (nodes : List Node) (edges : List Edge) (nodeId edgeId : String)
      (newData : List (String × String)) (b : Bool),
      (∀ (i : Nat) (n : Node), nodes[i]? = some n → n.id ≠ nodeId →
        (updateNodeData nodes nodeId newData)[i]? = some n) ∧
      (∀ (i : Nat) (n : Node), nodes[i]? = some n → n.id = nodeId →
        (updateNodeData nodes nodeId newData)[i]?
          = some { n with data := mergeData n.data newData }) ∧
      (∀ (old new : List (String × String)) (k : String),
        lookupData (mergeData old new) k
          = match lookupData new k with
            | some v => some v
            | none => lookupData old k) ∧
      (∀ (i : Nat) (e : Edge), edges[i]? = some e → e.id ≠ edgeId →
        (updateEdgeAnimation edges edgeId b)[i]? = some e) ∧
      (∀ (i : Nat) (e : Edge), edges[i]? = some e → e.id = edgeId →
        (updateEdgeAnimation edges edgeId b)[i]?
          = some { e with animated := b }) := by
  intro nodes edges nodeId edgeId newData b
  refine ⟨?_, ?_, fun old new k => lookupData_mergeData old new k, ?_, ?_⟩
  · intro i n hi hne
    unfold updateNodeData
    rw [List.getElem?_map, hi]
    simp [hne]
  · intro i n hi he
    unfold updateNodeData
    rw [List.getElem?_map, hi]
    simp [he]
  · intro i e hi hne
    unfold updateEdgeAnimation
    rw [List.getElem?_map, hi]
    simp [hne]
  · intro i e hi he
    unfold updateEdgeAnimation
    rw [List.getElem?_map, hi]
    simp [he]

/-- C9 witness: updating the `pdf` node's `fileName` rewrites exactly that
node's data by spread-merge. -/
theorem C9_witness :
    (updateNodeData initialNodes "pdf" [("fileName", "doc.pdf")])[0]?
      = some { id := "pdf"
             , data := mergeData [("fileName", "")]
                 [("fileName", "doc.pdf")] } :=
  (C9_targeted_update initialNodes initialEdges "pdf" "pdf-processing"
    [("fileName", "doc.pdf")] true).2.1 0
    { id := "pdf", data := [("fileName", "")] } (by decide) (by decide)

/-- C10: every execution of `processPDF` that passes its guards terminates
with `isProcessing` reset to `false` and the `pdf-processing` edge animation
off, on both the success and the error path. -/
theorem C10_processing_cleared :
    ∀ (st : AppState) (outcome : FetchOutcome),
      st.selectedFile.isNone = false → st.apiStatus ≠ "offline" →
      ((processPDF st outcome).1.isProcessing = false ∧
       ∀ e ∈ (processPDF st outcome).1.edges, e.id = "pdf-processing" →
         e.animated = false) := by
  intro st outcome hfile hoff
  unfold processPDF
  simp only [hfile, Bool.false_eq_true, if_false, hoff, ite_false]
  refine ⟨by trivial, ?_⟩
  intro e he hid
  exact updateEdgeAnimation_mem_off _ _ e he hid

/-- C10 witness: guards passed and the fetch failed — `isProcessing` is still
reset to `false`. -/
theorem C10_witness :
    (processPDF readyState (FetchOutcome.netError "boom")).1.isProcessing
      = false :=
  (C10_processing_cleared readyState (FetchOutcome.netError "boom")
    (by decide) (by decide)).1

/-- C6 witness: a concrete pipeline run whose reply yields a table with a
short row — the normalized row in the final result has exactly as many cells
as the headers. -/
theorem C6_witness :
    (["1", ""] : List String).length
      = (Table.mk ["a", "b"] [["1", ""]]).headers.length :=
  C6_table_rows_normalized.1 HealthState.online 4000 "t"
    (fun _ => some c6OracleReply)
    (Table.mk ["a", "b"] [["1", ""]]) (by decide) ["1", ""] (by decide)

end Piazza
